import Mathlib

-- Verification of the devd/moddwatch watch-batch-filter pipeline.
--
-- The embedding below translates the Go sources of the watcher subsystem:
--  * the Mod changeset type, _keys and mkmod (moddwatch watch.go),
--  * the batch select loop (moddwatch watch.go),
--  * the doublestar glob matcher (vendor/github.com/bmatcuk/doublestar),
--  * the two iterations of the filter package (Files and friends),
--  * Mod.Filter in both iterations and the steady-state Watch loop body.
--
-- Go strings are modelled as Lean String or List Char (one list entry per
-- rune; the strings under study are ASCII, where Go's byte indexing and
-- rune decoding coincide with list traversal).  Go (value, error) returns
-- are modelled as Except Unit: the only error the matcher can produce is
-- ErrBadPattern, written here as Except.error ().  Go map[string]bool used
-- as a set of paths is modelled as Finset String: insertion is idempotent
-- and iteration order is unspecified, exactly as for Go map keys.

namespace moddwatch

-- Raw filesystem event kinds delivered by the OS subscription
-- (github.com/rjeczalik/notify), as consumed by the batch switch.
inductive Event where
  | Create
  | Remove
  | Write
  | Rename
deriving DecidableEq, Repr

-- Mod encapsulates a set of changes (watch.go).
structure Mod where
  Changed : List String
  Deleted : List String
  Added : List String
deriving DecidableEq, Repr

-- Empty checks if this mod set is empty (watch.go Mod.Empty).
def Mod.Empty (mod : Mod) : Bool :=
  if mod.Changed.length + mod.Deleted.length + mod.Added.length > 0 then
    false
  else
    true

-- fset models Go's map[string]bool used as a set of paths (watch.go).
abbrev fset := Finset String

-- lexLe is the lexicographic comparison used by Go's sort.Strings: Go
-- compares strings byte by byte, and on valid UTF-8 the byte order is the
-- code-point order, so the comparison is modelled on rune (Char) lists.
def lexLe : List Char → List Char → Bool
  | [], _ => true
  | _ :: _, [] => false
  | a :: as, b :: bs => if a < b then true else if b < a then false else lexLe as bs

-- The corresponding order on Go strings.
def sLe (a b : String) : Prop := lexLe a.toList b.toList = true

instance : DecidableRel sLe := fun a b =>
  inferInstanceAs (Decidable (lexLe a.toList b.toList = true))

-- lexLe is a total order; these three facts make the sort on a key
-- multiset below well defined.
theorem lexLe_total : ∀ (x y : List Char), lexLe x y = true ∨ lexLe y x = true
  | [], _ => Or.inl rfl
  | _ :: _, [] => Or.inr rfl
  | a :: as, b :: bs => by
    rcases lt_trichotomy a b with hab | hab | hab
    · left
      simp [lexLe, hab]
    · subst hab
      rcases lexLe_total as bs with h | h
      · left
        simp [lexLe, lt_irrefl, h]
      · right
        simp [lexLe, lt_irrefl, h]
    · right
      simp [lexLe, hab]

theorem lexLe_trans :
    ∀ (x y z : List Char), lexLe x y = true → lexLe y z = true → lexLe x z = true
  | [], _, _, _, _ => rfl
  | _ :: _, [], _, h, _ => by simp [lexLe] at h
  | _ :: _, _ :: _, [], _, h => by simp [lexLe] at h
  | a :: as, b :: bs, c :: cs, h1, h2 => by
    simp only [lexLe] at h1 h2 ⊢
    rcases lt_trichotomy a b with hab | hab | hab
    · rcases lt_trichotomy b c with hbc | hbc | hbc
      · simp [lt_trans hab hbc]
      · subst hbc
        simp [hab]
      · simp [lt_asymm hbc, hbc] at h2
    · subst hab
      rcases lt_trichotomy a c with hac | hac | hac
      · simp [hac]
      · subst hac
        simp only [lt_irrefl, if_false] at h1 h2 ⊢
        exact lexLe_trans as bs cs h1 h2
      · simp [lt_asymm hac, hac] at h2
    · simp [lt_asymm hab, hab] at h1

theorem lexLe_antisymm :
    ∀ (x y : List Char), lexLe x y = true → lexLe y x = true → x = y
  | [], [], _, _ => rfl
  | [], _ :: _, _, h => by simp [lexLe] at h
  | _ :: _, [], h, _ => by simp [lexLe] at h
  | a :: as, b :: bs, h1, h2 => by
    simp only [lexLe] at h1 h2
    rcases lt_trichotomy a b with hab | hab | hab
    · simp [lt_asymm hab, hab] at h2
    · subst hab
      simp only [lt_irrefl, if_false] at h1 h2
      rw [lexLe_antisymm as bs h1 h2]
    · simp [lt_asymm hab, hab] at h1

instance : IsTotal String sLe := ⟨fun a b => lexLe_total a.toList b.toList⟩

instance : IsTrans String sLe := ⟨fun a b c => lexLe_trans a.toList b.toList c.toList⟩

instance : IsAntisymm String sLe :=
  ⟨fun a b h1 h2 => by
    have h3 := lexLe_antisymm a.toList b.toList h1 h2
    cases a
    cases b
    exact congrArg String.mk (by simpa [String.toList] using h3)⟩

-- Sorting the key multiset of a Go map: sort.Strings is modelled by
-- insertion sort over sLe; the result is well defined on the multiset
-- because two sorted permutations of the same keys are equal.
def msort (m : Multiset String) : List String :=
  Quot.liftOn m (fun l => List.insertionSort sLe l) (fun l1 l2 h =>
    List.eq_of_perm_of_sorted
      ((List.perm_insertionSort sLe l1).trans
        (List.Perm.trans h (List.perm_insertionSort sLe l2).symm))
      (List.sorted_insertionSort sLe l1) (List.sorted_insertionSort sLe l2))

-- _keys returns the sorted key list of an fset, nil for an empty map
-- (watch.go _keys).
def mkeys (m : fset) : List String :=
  if 0 < m.card then msort m.val else []

-- mkmod resolves the accumulated event sets into a Mod (watch.go mkmod).
-- The Go function iterates over each map and mutates entries; every loop
-- body touches only the entry of the key at hand, so each loop is the
-- corresponding pointwise set transformation:
--  * `for k := range renamed`: keys that exist are inserted into added,
--    the others into removed;
--  * `for k := range added` (added as left by the renamed loop): every
--    visited key is deleted from changed and removed, and keys that do
--    not exist are deleted from added itself;
--  * `for k := range removed` (removed as left by the added loop): keys
--    that exist are deleted from removed; keys that do not exist are
--    deleted from added and changed.
def mkmod (exists_ : String → Bool) (added removed changed renamed : fset) : Mod :=
  let added1 := added ∪ renamed.filter (fun k => exists_ k = true)
  let removed1 := removed ∪ renamed.filter (fun k => exists_ k = false)
  let changed2 := changed \ added1
  let removed2 := removed1 \ added1
  let added2 := added1.filter (fun k => exists_ k = true)
  let removedDead := removed2.filter (fun k => exists_ k = false)
  let added3 := added2 \ removedDead
  let changed3 := changed2 \ removedDead
  { Added := mkeys added3, Changed := mkeys changed3, Deleted := mkeys removedDead }

-- The accumulator state of one batch cycle: the four maps declared at the
-- top of batch (watch.go).
structure Acc where
  added : fset
  removed : fset
  changed : fset
  renamed : fset
deriving DecidableEq

def emptyAcc : Acc := ⟨∅, ∅, ∅, ∅⟩

-- The event switch inside batch (watch.go): records the path of a raw
-- event into the accumulator set matching its kind.
def recordEvent (acc : Acc) (evt : Event × String) : Acc :=
  match evt.1 with
  | .Create => { acc with added := insert evt.2 acc.added }
  | .Remove => { acc with removed := insert evt.2 acc.removed }
  | .Write => { acc with changed := insert evt.2 acc.changed }
  | .Rename => { acc with renamed := insert evt.2 acc.renamed }

-- Accumulation of a whole list of raw events, in arrival order.
def accumulate (evts : List (Event × String)) : Acc :=
  evts.foldl recordEvent emptyAcc

-- Resolution of an accumulator state, as called from batch:
-- mkmod(exists, added, removed, changed, renamed).
def resolve (exists_ : String → Bool) (acc : Acc) : Mod :=
  mkmod exists_ acc.added acc.removed acc.changed acc.renamed

-- batchLoop models the select loop of batch (watch.go).  Each iteration of
-- the Go loop evaluates time.After(lullTime) and time.After(maxTime) anew,
-- so both timers measure from the start of the current iteration, not from
-- the start of the cycle.  The input trace lists the pending events as
-- (gap, event) pairs, gap being the time from the start of the current
-- iteration to the arrival of the event; after the last listed event no
-- further event arrives, and a closed channel (the nil-event shutdown path
-- of the later iteration of the code) is not modelled.  A select race is
-- decided by the earliest deadline; simultaneous deadlines, which Go
-- resolves randomly, are resolved in favour of the timers, and the
-- theorems below only use traces without ties.  The result is the total
-- duration of the cycle together with the Mod it resolves to.
def batchLoop (lullTime maxTime : Nat) (exists_ : String → Bool) (hadLullMod : Bool)
    (acc : Acc) : List (Nat × Event × String) → Nat × Mod
  | [] =>
    if maxTime < lullTime then
      (maxTime, resolve exists_ acc)
    else
      match hadLullMod with
      | true =>
        -- the lull timer fires, hadLullMod becomes false, the loop resumes
        let r := batchLoop lullTime maxTime exists_ false acc []
        (lullTime + r.1, r.2)
      | false => (lullTime, resolve exists_ acc)
  | (g, ev) :: rest =>
    if g < lullTime ∧ g < maxTime then
      -- the event wins the race and is recorded; hadLullMod = true
      let r := batchLoop lullTime maxTime exists_ true (recordEvent acc ev) rest
      (g + r.1, r.2)
    else if maxTime < lullTime then
      (maxTime, resolve exists_ acc)
    else
      match hadLullMod with
      | true =>
        -- the lull timer fires first; the pending event keeps waiting
        let r := batchLoop lullTime maxTime exists_ false acc ((g - lullTime, ev) :: rest)
        (lullTime + r.1, r.2)
      | false => (lullTime, resolve exists_ acc)
termination_by evts =>
  2 * evts.length + (evts.map Prod.fst).sum + (if hadLullMod then 1 else 0)
decreasing_by
all_goals simp only [List.length_cons, List.map_cons, List.sum_cons, List.length_nil,
  List.map_nil, List.sum_nil, if_true, if_false]
· omega
· cases hadLullMod <;> simp <;> omega
· omega

-- batch starts a cycle with empty accumulators and no recorded activity
-- (watch.go batch).
def batch (lullTime maxTime : Nat) (exists_ : String → Bool)
    (evts : List (Nat × Event × String)) : Nat × Mod :=
  batchLoop lullTime maxTime exists_ false emptyAcc evts

end moddwatch

-- The vendored glob matcher, vendor/github.com/bmatcuk/doublestar.
-- Strings are modelled as rune (Char) lists; the strings under study are
-- ASCII, where Go's byte indexing, utf8.DecodeRuneInString and
-- utf8.RuneLen(1) coincide with plain list traversal.  The only error the
-- package returns is ErrBadPattern, modelled as Except.error ().  The Go
-- recursions are not structural; every function whose recursion Lean
-- cannot follow takes explicit fuel, instantiated at the entry points with
-- a bound on the recursion depth, so the fuel never runs out.
namespace doublestar

-- strings.IndexRune on a rune list.
def findIdxChar (r : Char) : List Char → Option Nat
  | [] => none
  | c :: cs => if c = r then some 0 else (findIdxChar r cs).map (· + 1)

-- indexRuneWithEscaping (doublestar.go lines 39-48): the index of the
-- first occurrence of r, where an occurrence directly preceded by a
-- backslash is skipped and the search resumes just after it.  Each Go
-- recursion step consumes at least one character, so length+1 fuel
-- suffices.
def indexRuneWithEscapingF : Nat → List Char → Char → Option Nat
  | 0, _, _ => none
  | fuel + 1, s, r =>
    match findIdxChar r s with
    | none => none
    | some e =>
      if 0 < e ∧ s.getD (e - 1) ' ' = '\\' then
        match indexRuneWithEscapingF fuel (s.drop (e + 1)) r with
        | none => none
        | some e2 => some (e + 1 + e2)
      else
        some e

def indexRuneWithEscaping (s : List Char) (r : Char) : Option Nat :=
  indexRuneWithEscapingF (s.length + 1) s r

-- The split loop of splitPathOnSeparator (doublestar.go lines 24-36):
-- segments end at unescaped separators.  A trailing separator does not
-- produce a final empty segment, because the Go loop index jumps past the
-- end of the string.
def splitLoopF : Nat → Char → List Char → List (List Char)
  | 0, _, _ => []
  | fuel + 1, sep, s =>
    if s = [] then []
    else
      match indexRuneWithEscaping s sep with
      | none => [s]
      | some e => s.take e :: splitLoopF fuel sep (s.drop (e + 1))

-- splitPathOnSeparator (doublestar.go lines 14-37): when the separator is
-- a backslash escaping is disabled and the string is split naively.
def splitPathOnSeparator (path : List Char) (separator : Char) : List (List Char) :=
  if separator = '\\' then
    path.splitOn separator
  else if path.count separator = 0 then
    [path]
  else
    splitLoopF (path.length + 1) separator path

-- The post-loop returns of matchComponent (doublestar.go lines 356-358),
-- on the remaining pattern and name; Go's && binds tighter than ||.
def mcPost (pat nm : List Char) : Bool :=
  if pat = [] ∧ nm = [] then true
  else if (nm = [] ∧ pat = ['*']) ∨ pat = ['*', '*'] then true
  else false

-- The inner loop of the '*' case of matchComponent (doublestar.go lines
-- 284-288): try every non-empty suffix of the remaining name; errors of
-- the recursive calls are discarded (the Go code binds them to _).
def starLoop (mc : List Char → List Char → Except Unit Bool) (pat : List Char) :
    List Char → Except Unit Bool
  | [] => .ok false
  | c :: cs =>
    match mc pat (c :: cs) with
    | .ok true => .ok true
    | _ => starLoop mc pat cs

-- The options loop of the '\x7b' case of matchComponent (doublestar.go
-- lines 343-347): each alternative is prefixed to the pattern after the
-- closing brace; errors propagate, a first success wins.
def braceLoop (mc : List Char → List Char → Except Unit Bool) (after nm : List Char) :
    List (List Char) → Except Unit Bool
  | [] => .ok false
  | o :: os =>
    match mc (o ++ after) nm with
    | .error e => .error e
    | .ok true => .ok true
    | .ok false => braceLoop mc after nm os

-- The character-class scan of the '[' case of matchComponent
-- (doublestar.go lines 298-329): the class runes are scanned completely
-- (malformed ranges later in the class still error), accumulating whether
-- any range contains the name rune.  One Go iteration consumes at least
-- one class rune, so length+1 fuel suffices.
def classScanF (nmRune : Char) : Nat → List Char → Bool → Except Unit Bool
  | 0, _, _ => .error ()
  | fuel + 1, cl, acc =>
    match cl with
    | [] => .ok acc
    | c0 :: r1 =>
      if c0 = '-' then .error ()
      else
        let lowStep : Option (Char × List Char) :=
          if c0 = '\\' then
            match r1 with
            | [] => none
            | l2 :: r2 => some (l2, r2)
          else some (c0, r1)
        match lowStep with
        | none => .error ()
        | some (low, rest1) =>
          match rest1 with
          | '-' :: rest2 =>
            match rest2 with
            | [] => .error ()
            | h0 :: rest3 =>
              if h0 = '-' then .error ()
              else if h0 = '\\' then
                match rest3 with
                | [] => .error ()
                | h1 :: rest4 =>
                  classScanF nmRune fuel rest4
                    (if low ≤ nmRune ∧ nmRune ≤ h1 then true else acc)
              else
                classScanF nmRune fuel rest3
                  (if low ≤ nmRune ∧ nmRune ≤ h0 then true else acc)
          | _ =>
            classScanF nmRune fuel rest1
              (if low ≤ nmRune ∧ nmRune ≤ low then true else acc)

-- mcF is matchComponent (doublestar.go lines 262-359).  The Go function is
-- an entry check (phase true, lines 263-266) followed by a scanning loop
-- (phase false, lines 267-358) that continues with the same strings, so
-- the two phases share one fueled definition.  Along any chain of nested
-- calls the quantity 4*|pattern| + |name| + 2 strictly decreases, so the
-- entry wrapper below passes it (plus slack) as fuel and the fuel never
-- runs out.
def mcF : Nat → Bool → List Char → List Char → Except Unit Bool
  | 0, _, _, _ => .error ()
  | fuel + 1, true, pat, nm =>
    if pat = [] ∧ nm = [] then .ok true
    else if pat = [] then .ok false
    else if nm = [] ∧ pat ≠ ['*'] then .ok false
    else mcF fuel false pat nm
  | fuel + 1, false, pat, nm =>
    match pat, nm with
    | '\\' :: prest, n :: ns =>
      -- lines 271-281: an escape must be followed by a rune matching the
      -- name rune; at the end of the pattern DecodeRuneInString yields
      -- RuneError, which is ErrBadPattern
      match prest with
      | [] => .error ()
      | c :: prest2 => if c = n then mcF fuel false prest2 ns else .ok false
    | '*' :: prest, _ :: _ =>
      -- lines 282-289
      if prest = [] then .ok true
      else starLoop (fun a b => mcF fuel true a b) prest nm
    | '[' :: prest, n :: ns =>
      -- lines 290-335
      match indexRuneWithEscaping prest ']' with
      | none => .error ()
      | some e =>
        match prest.take e with
        | [] => .error ()
        | c0 :: crest =>
          let body := if c0 = '^' then crest else c0 :: crest
          match classScanF n (body.length + 1) body false with
          | .error e2 => .error e2
          | .ok matchClass =>
            if matchClass = (c0 = '^' : Bool) then .ok false
            else mcF fuel false (prest.drop (e + 1)) ns
    | '\x7b' :: prest, _ :: _ =>
      -- lines 336-348
      match indexRuneWithEscaping prest '\x7d' with
      | none => .error ()
      | some e =>
        braceLoop (fun a b => mcF fuel true a b) (prest.drop (e + 1)) nm
          (splitPathOnSeparator (prest.take e) ',')
    | c :: prest, n :: ns =>
      -- lines 349-353
      if c = '?' ∨ c = n then mcF fuel false prest ns else .ok false
    | _, _ => .ok (mcPost pat nm)

-- matchComponent with its fuel bound.
def matchComponent (pat nm : List Char) : Except Unit Bool :=
  mcF (4 * pat.length + nm.length + 8) true pat nm

-- The suffix loop of the '**' case of doMatching (doublestar.go lines
-- 134-138); errors of the recursive calls are discarded.
def starComps (dm : List (List Char) → List (List Char) → Except Unit Bool)
    (pats : List (List Char)) : List (List Char) → Except Unit Bool
  | [] => .ok false
  | n :: ns =>
    match dm pats (n :: ns) with
    | .ok true => .ok true
    | _ => starComps dm pats ns

-- doMatching (doublestar.go lines 126-148) on the component lists.  The
-- Go entry checks coincide with the loop-exit condition, so the loop is a
-- plain recursion; each nested call drops at least one component of the
-- pattern or of the name, so component counts plus one suffice as fuel.
def doMatchingF : Nat → List (List Char) → List (List Char) → Except Unit Bool
  | 0, _, _ => .error ()
  | fuel + 1, pats, nms =>
    match pats, nms with
    | [], [] => .ok true
    | [], _ :: _ => .ok false
    | _ :: _, [] => .ok false
    | p :: ps, n :: ns =>
      if p = ['*', '*'] then
        if ps = [] then .ok true
        else starComps (fun a b => doMatchingF fuel a b) ps (n :: ns)
      else
        match matchComponent p n with
        | .error e => .error e
        | .ok false => .ok false
        | .ok true => doMatchingF fuel ps ns

-- matchWithSeparator (doublestar.go lines 120-124).
def matchWithSeparator (pattern nm : List Char) (separator : Char) : Except Unit Bool :=
  let patternComponents := splitPathOnSeparator pattern separator
  let nameComponents := splitPathOnSeparator nm separator
  doMatchingF (patternComponents.length + nameComponents.length + 1)
    patternComponents nameComponents

-- Match (doublestar.go lines 80-82): the path separator is '/'.
def Match (pattern nm : String) : Except Unit Bool :=
  matchWithSeparator pattern.toList nm.toList '/'

end doublestar

-- Whether a Go (value, error) result carries a non-nil error.
def isErr {α : Type} (x : Except Unit α) : Bool :=
  match x with
  | .error _ => true
  | .ok _ => false

-- The filter package iteration that accompanies the later watch.go (the
-- one defining MatchAny, File, Files and SplitPattern).  filepath.ToSlash
-- is the identity on the slash-separated platform modelled here.
namespace filterNew

-- MatchAny (filter.go): the first matcher error short-circuits, the first
-- match wins.
def MatchAny (path : String) : List String → Except Unit Bool
  | [] => .ok false
  | pattern :: rest =>
    match doublestar.Match pattern path with
    | .error e => .error e
    | .ok true => .ok true
    | .ok false => MatchAny path rest

-- File (filter.go): at least one include pattern and no exclude pattern
-- must match; the empty string is Go's "" result, meaning the path is
-- filtered out.
def File (path : String) (includePatterns excludePatterns : List String) :
    Except Unit String :=
  match MatchAny path excludePatterns with
  | .error e => .error e
  | .ok true => .ok ""
  | .ok false =>
    match MatchAny path includePatterns with
    | .error e => .error e
    | .ok true => .ok path
    | .ok false => .ok ""

-- The loop of Files (filter.go): a file whose File call errors or returns
-- "" is skipped (the continue statement), so per-file errors are dropped.
def filesLoop (includePatterns excludePatterns : List String) :
    List String → List String
  | [] => []
  | file :: rest =>
    match File file includePatterns excludePatterns with
    | .error _ => filesLoop includePatterns excludePatterns rest
    | .ok path =>
      if path = "" then filesLoop includePatterns excludePatterns rest
      else path :: filesLoop includePatterns excludePatterns rest

-- Files (filter.go): the returned error is always nil.
def Files (files includePatterns excludePatterns : List String) :
    Except Unit (List String) :=
  .ok (filesLoop includePatterns excludePatterns files)

end filterNew

-- The filter package iteration that accompanies the earlier watch.go (the
-- one defining matchAny, shouldInclude, Files and BaseDir).  matchAny
-- wraps the matcher error in a new message, which the Except model keeps
-- as the same error value.
namespace filterOld

def matchAny (path : String) : List String → Except Unit Bool
  | [] => .ok false
  | pattern :: rest =>
    match doublestar.Match pattern path with
    | .error e => .error e
    | .ok true => .ok true
    | .ok false => matchAny path rest

-- shouldInclude (filter.go): the include patterns are consulted before the
-- exclude patterns, and either matchAny error is returned.
def shouldInclude (file : String) (includePatterns excludePatterns : List String) :
    Except Unit Bool :=
  match matchAny file includePatterns with
  | .error e => .error e
  | .ok false => .ok false
  | .ok true =>
    match matchAny file excludePatterns with
    | .error e => .error e
    | .ok true => .ok false
    | .ok false => .ok true

-- Files (filter.go): the first shouldInclude error aborts the loop and is
-- returned (Go returns the unfiltered input list alongside the error,
-- which the Except model drops).
def Files : List String → List String → List String → Except Unit (List String)
  | [], _, _ => .ok []
  | file :: rest, includePatterns, excludePatterns =>
    match shouldInclude file includePatterns excludePatterns with
    | .error e => .error e
    | .ok keep =>
      match Files rest includePatterns excludePatterns with
      | .error e => .error e
      | .ok ret => .ok (if keep then file :: ret else ret)

end filterOld

namespace moddwatch

-- Mod.Filter of the earlier watch.go iteration (watch.go lines 137-151),
-- whose filter package propagates pattern errors: each of the three fields
-- is filtered in turn and the first error aborts.
def ModFilterOld (mod : Mod) (includes excludes : List String) : Except Unit Mod :=
  match filterOld.Files mod.Changed includes excludes with
  | .error e => .error e
  | .ok changed =>
    match filterOld.Files mod.Deleted includes excludes with
    | .error e => .error e
    | .ok deleted =>
      match filterOld.Files mod.Added includes excludes with
      | .error e => .error e
      | .ok added => .ok { Changed := changed, Deleted := deleted, Added := added }

-- Mod.Filter of the later watch.go iteration (root is accepted and
-- ignored), whose filter package swallows per-path pattern errors.
def ModFilterNew (mod : Mod) (root : String) (includes excludes : List String) :
    Except Unit Mod :=
  match filterNew.Files mod.Changed includes excludes with
  | .error e => .error e
  | .ok changed =>
    match filterNew.Files mod.Deleted includes excludes with
    | .error e => .error e
    | .ok deleted =>
      match filterNew.Files mod.Added includes excludes with
      | .error e => .error e
      | .ok added => .ok { Changed := changed, Deleted := deleted, Added := added }

-- One iteration of the steady-state goroutine of the later Watch
-- (watch.go): a non-nil batch result b is processed only if non-empty; on
-- a normalization or filtering error the loop continues without
-- publishing or logging anything (the two FIXME branches); otherwise the
-- filtered changeset is sent iff it is non-empty.  normPaths calls
-- filepath.Abs, which depends on process state, so the normalization step
-- is passed as an oracle.  The result is the Mod published for this
-- cycle, if any.
def watchCycle (norm : Mod → Except Unit Mod) (root : String)
    (newincludes excludes : List String) (b : Mod) : Option Mod :=
  if !b.Empty then
    match norm b with
    | .error _ => none
    | .ok b1 =>
      match ModFilterNew b1 root newincludes excludes with
      | .error _ => none
      | .ok b2 => if !b2.Empty then some b2 else none
  else none

-- One iteration of the steady-state goroutine of the earlier Watch
-- (watch.go lines 307-318): for a non-empty batch result the normalized
-- changeset pointer is sent on the channel even when normalization
-- failed, in which case the error is logged and the sent pointer is nil
-- (the inner none).  The outer Option records whether anything was sent.
def watchCycleOld (norm : Mod → Except Unit Mod) (b : Mod) : Option (Option Mod) :=
  if !b.Empty then
    some (match norm b with
          | .ok ret => some ret
          | .error _ => none)
  else none

end moddwatch

-- ====================================================================
-- Properties
-- ====================================================================

namespace moddwatch

theorem msort_sorted (m : Multiset String) : List.Sorted sLe (msort m) :=
  Quot.inductionOn m fun l => List.sorted_insertionSort sLe l

theorem mem_msort {p : String} {m : Multiset String} : p ∈ msort m ↔ p ∈ m :=
  Quot.inductionOn m fun l => by
    show p ∈ List.insertionSort sLe l ↔ _
    rw [List.mem_insertionSort]
    exact Multiset.mem_coe.symm

theorem msort_nodup {m : Multiset String} (h : m.Nodup) : (msort m).Nodup := by
  induction m using Quot.inductionOn with
  | _ l => exact ((List.perm_insertionSort sLe l).nodup_iff).mpr h

theorem mkeys_sorted (m : fset) : List.Sorted sLe (mkeys m) := by
  unfold mkeys
  split
  · exact msort_sorted m.val
  · exact List.sorted_nil

theorem mkeys_nodup (m : fset) : (mkeys m).Nodup := by
  unfold mkeys
  split
  · exact msort_nodup m.nodup
  · exact List.nodup_nil

theorem mem_mkeys {p : String} {m : fset} : p ∈ mkeys m ↔ p ∈ m := by
  unfold mkeys
  rcases Nat.eq_zero_or_pos m.card with h | h
  · rw [if_neg (by omega)]
    have hm : m = ∅ := Finset.card_eq_zero.mp h
    subst hm
    simp
  · rw [if_pos h, mem_msort]
    exact Finset.mem_val

-- Under a trace whose gaps are all shorter than lullTime (with lullTime ≤
-- maxTime), the select loop consumes every pending event, then needs two
-- further full lull windows: one that observes the recorded activity and
-- resets, and one that returns.  The maxTime timer, being re-created at
-- every iteration, never fires.
theorem batchLoop_run (lullTime maxTime : Nat) (exists_ : String → Bool)
    (hlm : lullTime ≤ maxTime) :
    ∀ (evts : List (Nat × Event × String)) (hadLullMod : Bool) (acc : Acc),
      (∀ p ∈ evts, p.1 < lullTime) →
      batchLoop lullTime maxTime exists_ hadLullMod acc evts =
        ((evts.map Prod.fst).sum +
          (if hadLullMod = true ∨ evts ≠ [] then 2 * lullTime else lullTime),
         resolve exists_ ((evts.map Prod.snd).foldl recordEvent acc)) := by
  have hnl : ¬ maxTime < lullTime := Nat.not_lt.mpr hlm
  intro evts
  induction evts with
  | nil =>
    intro hadLullMod acc _
    cases hadLullMod with
    | false => simp [batchLoop, hnl]
    | true =>
      simp [batchLoop, hnl]
      omega
  | cons e rest ih =>
    intro hadLullMod acc hg
    obtain ⟨g, ev⟩ := e
    have hgl : g < lullTime := hg (g, ev) (by simp)
    have hgm : g < maxTime := lt_of_lt_of_le hgl hlm
    have hrest : ∀ p ∈ rest, p.1 < lullTime := fun p hp => hg p (by simp [hp])
    rw [batchLoop.eq_def]
    dsimp only
    rw [if_pos (And.intro hgl hgm)]
    rw [ih true (recordEvent acc ev) hrest]
    simp [List.cons_ne_nil]
    omega

end moddwatch

open moddwatch doublestar in
/-- C1: the spec requires that under continuous event pressure (every gap
shorter than lullTime) the batch cycle still resolves and returns once
maxTime total has elapsed, so that a cycle never exceeds maxTime.  The
code re-creates both time.After timers at every iteration, so the maxTime
timer never fires: with lullTime = 2, maxTime = 8 and ten events arriving
at gap 1, the cycle lasts 14 > 8 time units (and grows without bound in
the number of events), contradicting the claim; this also contradicts the
code's own comment that MaxLullWait "kicks in if we've had a constant
stream of modifications". -/
theorem batch_cycle_exceeds_maxTime :
    (batch 2 8 (fun _ => true) (List.replicate 10 (1, Event.Write, "foo"))).1 = 14 ∧
    8 < (batch 2 8 (fun _ => true) (List.replicate 10 (1, Event.Write, "foo"))).1 := by
  have h := batchLoop_run 2 8 (fun _ => true) (by omega)
    (List.replicate 10 (1, Event.Write, "foo")) false emptyAcc (by decide)
  have h1 : (batch 2 8 (fun _ => true) (List.replicate 10 (1, Event.Write, "foo"))).1 = 14 := by
    show (batchLoop 2 8 (fun _ => true) false emptyAcc
      (List.replicate 10 (1, Event.Write, "foo"))).1 = 14
    rw [h]
    decide
  exact ⟨h1, by omega⟩

open moddwatch in
/-- C5: given the raw events Rename(foo) and Rename(bar) accumulated in one
cycle, with the existence oracle answering true for foo and false for bar
at resolution time, the changeset emitted by resolution is exactly
Added = [foo], Deleted = [bar], Changed = []. -/
theorem rename_as_move :
    resolve (fun p => p == "foo")
        (accumulate [(Event.Rename, "foo"), (Event.Rename, "bar")])
      = { Changed := [], Deleted := ["bar"], Added := ["foo"] } := by
  decide

open moddwatch in
/-- C6: given the raw events Create(foo) and Remove(foo) accumulated within
one cycle, with the existence oracle answering false for foo at resolution
time, the emitted changeset contains foo in none of Added, Changed or
Deleted. -/
theorem transient_file_eliminated :
    "foo" ∉ (resolve (fun _ => false)
        (accumulate [(Event.Create, "foo"), (Event.Remove, "foo")])).Added ∧
    "foo" ∉ (resolve (fun _ => false)
        (accumulate [(Event.Create, "foo"), (Event.Remove, "foo")])).Changed ∧
    "foo" ∉ (resolve (fun _ => false)
        (accumulate [(Event.Create, "foo"), (Event.Remove, "foo")])).Deleted := by
  decide

open moddwatch in
/-- C7: for every accumulator state and existence oracle, each of the three
lists of the changeset emitted by resolution is lexicographically sorted
(with respect to the byte order used by sort.Strings) and contains no
duplicate paths. -/
theorem mkmod_sorted_nodup (exists_ : String → Bool)
    (added removed changed renamed : fset) :
    (List.Sorted sLe (mkmod exists_ added removed changed renamed).Added ∧
      (mkmod exists_ added removed changed renamed).Added.Nodup) ∧
    (List.Sorted sLe (mkmod exists_ added removed changed renamed).Changed ∧
      (mkmod exists_ added removed changed renamed).Changed.Nodup) ∧
    (List.Sorted sLe (mkmod exists_ added removed changed renamed).Deleted ∧
      (mkmod exists_ added removed changed renamed).Deleted.Nodup) :=
  ⟨⟨mkeys_sorted _, mkeys_nodup _⟩, ⟨mkeys_sorted _, mkeys_nodup _⟩,
    ⟨mkeys_sorted _, mkeys_nodup _⟩⟩

open moddwatch in
/-- C8: for every accumulator state and pure existence oracle, the three
lists of the changeset emitted by resolution are pairwise disjoint: no
path appears in more than one of Added, Changed, Deleted. -/
theorem mkmod_disjoint (exists_ : String → Bool)
    (added removed changed renamed : fset) (p : String) :
    (p ∈ (mkmod exists_ added removed changed renamed).Added →
      p ∉ (mkmod exists_ added removed changed renamed).Changed) ∧
    (p ∈ (mkmod exists_ added removed changed renamed).Added →
      p ∉ (mkmod exists_ added removed changed renamed).Deleted) ∧
    (p ∈ (mkmod exists_ added removed changed renamed).Changed →
      p ∉ (mkmod exists_ added removed changed renamed).Deleted) := by
  simp only [mkmod, mem_mkeys, Finset.mem_sdiff, Finset.mem_filter, Finset.mem_union]
  tauto

/-- C8 witness. -/
theorem mkmod_disjoint_witness :
    "y" ∉ (moddwatch.mkmod (fun _ => true) {"y"} ∅ ∅ ∅).Changed :=
  (mkmod_disjoint (fun _ => true) {"y"} ∅ ∅ ∅ "y").1 (by decide)

open moddwatch in
/-- C10: for every accumulator state and pure existence oracle, every path
in the emitted Added list exists according to the oracle and every path in
the emitted Deleted list does not; no analogous constraint holds for
Changed, whose paths may be non-existent. -/
theorem mkmod_added_deleted_existence (exists_ : String → Bool)
    (added removed changed renamed : fset) (p : String) :
    (p ∈ (mkmod exists_ added removed changed renamed).Added → exists_ p = true) ∧
    (p ∈ (mkmod exists_ added removed changed renamed).Deleted → exists_ p = false) ∧
    (∃ (oracle : String → Bool) (c2 : fset) (q : String),
      q ∈ (mkmod oracle ∅ ∅ c2 ∅).Changed ∧ oracle q = false) := by
  refine ⟨?_, ?_, ⟨fun _ => false, {"x"}, "x", by decide, rfl⟩⟩
  · intro h
    simp only [mkmod, mem_mkeys, Finset.mem_sdiff, Finset.mem_filter,
      Finset.mem_union] at h
    tauto
  · intro h
    simp only [mkmod, mem_mkeys, Finset.mem_sdiff, Finset.mem_filter,
      Finset.mem_union] at h
    tauto

/-- C10 witness. -/
theorem mkmod_added_deleted_existence_witness :
    (fun _ : String => true) "y" = true ∧ (fun _ : String => false) "z" = false :=
  ⟨(mkmod_added_deleted_existence (fun _ => true) {"y"} ∅ ∅ ∅ "y").1 (by decide),
   (mkmod_added_deleted_existence (fun _ => false) ∅ {"z"} ∅ ∅ "z").2.1 (by decide)⟩

open moddwatch doublestar in
/-- C2 counterexample: in the steady-state loop of the later Watch, a
pattern error during filtering is not surfaced and the cycle's non-empty
changeset is silently dropped rather than published: with exclude pattern
"[[", the matcher reports ErrBadPattern for the changed path "a", the
per-path error is swallowed by Files, the filtered changeset becomes
empty, and nothing is sent or logged — contradicting the claim that the
cycle's changeset is still published as-is. -/
theorem watch_pattern_error_cycle_dropped_cex :
    Match ("[[") ("a") = .error () ∧
    watchCycle (fun m => .ok m) ("root") (["**"]) (["[["])
        { Changed := ["a"], Deleted := [], Added := [] } = none :=
  ⟨rfl, rfl⟩

open moddwatch in
/-- C2 amended: when normalization or filtering of a non-empty emitted
batch fails with an error, the cycle's changeset is not published as-is:
the later watcher publishes nothing for that cycle (a silent drop), and
the earlier watcher sends a nil pointer instead of the changeset. -/
theorem watch_error_cycle_publishes_nothing :
    (∀ (norm : Mod → Except Unit Mod) (root : String)
        (newincludes excludes : List String) (b : Mod) (e : Unit),
      norm b = .error e → watchCycle norm root newincludes excludes b = none) ∧
    (∀ (norm : Mod → Except Unit Mod) (b : Mod) (e : Unit),
      b.Empty = false → norm b = .error e → watchCycleOld norm b = some none) := by
  constructor
  · intro norm root newincludes excludes b e h
    unfold watchCycle
    cases hb : b.Empty with
    | true => simp [hb]
    | false => simp [hb, h]
  · intro norm b e hb h
    unfold watchCycleOld
    simp [hb, h]

/-- C2 witness. -/
theorem watch_error_cycle_publishes_nothing_witness :
    moddwatch.watchCycle (fun _ => .error ()) ("") ([]) ([])
        { Changed := ["a"], Deleted := [], Added := [] } = none ∧
    moddwatch.watchCycleOld (fun _ => .error ())
        { Changed := ["a"], Deleted := [], Added := [] } = some none :=
  ⟨watch_error_cycle_publishes_nothing.1 _ _ _ _ _ () rfl,
   watch_error_cycle_publishes_nothing.2 _ _ () rfl rfl⟩

open moddwatch doublestar in
/-- C3 counterexample: with the Files implementation of the later filter
package, a malformed pattern does not surface from Mod.Filter: the matcher
reports ErrBadPattern for the path "a" in the Changed field under the
exclude pattern "[[", yet Filter returns a nil error and silently drops
the offending path from the field, contradicting the claim that Mod.Filter
aborts with a non-nil error. -/
theorem mod_filter_swallows_pattern_error_cex :
    Match ("[[") ("a") = .error () ∧
    ModFilterNew { Changed := ["a"], Deleted := [], Added := [] } ("root") (["**"]) (["[["])
      = .ok { Changed := [], Deleted := [], Added := [] } :=
  ⟨rfl, rfl⟩

open moddwatch in
/-- C3 amended: Mod.Filter surfaces exactly the errors its field filter
reports: with the error-propagating Files of the earlier filter package,
an error on any of the three fields aborts Mod.Filter with a non-nil
error, while the Files of the later filter package never returns an error
(per-path pattern errors are swallowed), so the later Mod.Filter never
returns one. -/
theorem mod_filter_error_propagation :
    (∀ (mod : Mod) (includes excludes : List String),
      (isErr (filterOld.Files mod.Changed includes excludes) = true ∨
        isErr (filterOld.Files mod.Deleted includes excludes) = true ∨
        isErr (filterOld.Files mod.Added includes excludes) = true) →
      isErr (ModFilterOld mod includes excludes) = true) ∧
    (∀ (mod : Mod) (root : String) (includes excludes : List String),
      isErr (ModFilterNew mod root includes excludes) = false) := by
  constructor
  · intro mod includes excludes h
    unfold ModFilterOld
    rcases h1 : filterOld.Files mod.Changed includes excludes with e1 | v1
    · simp [isErr]
    · rcases h2 : filterOld.Files mod.Deleted includes excludes with e2 | v2
      · simp [isErr]
      · rcases h3 : filterOld.Files mod.Added includes excludes with e3 | v3
        · simp [isErr]
        · simp [h1, h2, h3, isErr] at h
  · intro mod root includes excludes
    rfl

/-- C3 witness. -/
theorem mod_filter_error_propagation_witness :
    isErr (moddwatch.ModFilterOld { Changed := ["a"], Deleted := [], Added := [] }
        (["[["]) ([])) = true :=
  mod_filter_error_propagation.1 _ _ _ (Or.inl rfl)

open doublestar in
/-- C4 counterexample: the pattern "a[" contains an unterminated '[', yet
Match("a[", "b") returns (false, nil) with no error, because the name
fails to match at 'a' before the malformed class is reached; the same
pattern does yield ErrBadPattern for the name "ax", which reaches the
class.  So a malformed pattern does not produce ErrBadPattern for every
name. -/
theorem match_malformed_no_error_cex :
    Match ("a[") ("b") = .ok false ∧ Match ("a[") ("ax") = .error () :=
  ⟨rfl, rfl⟩

open doublestar in
/-- C4 amended: Match reports ErrBadPattern for a malformed construct only
when matching actually reaches the construct; for each listed malformed
class — unterminated '[', unterminated brace, trailing unescaped
backslash, malformed character range — there are names for which the
error is reported. -/
theorem match_malformed_error_when_reached :
    Match ("[a") ("x") = .error () ∧
    Match ("a\x7bb") ("ab") = .error () ∧
    Match ("a\\") ("ab") = .error () ∧
    Match ("[a-]") ("x") = .error () :=
  ⟨rfl, rfl, rfl, rfl⟩

open doublestar in
/-- C9: the glob matcher satisfies the literal table from the spec:
Match("a*b*c*d*e*/f", "axbxcxdxe/f") is true; Match("a/**", "a") is
false; Match("a/**", "a/b/c") is true; the brace pattern "ab" followed by
the alternatives c, d, * matches "abcde"; and Match("[]a]", "]") reports
ErrBadPattern. -/
theorem match_table :
    Match ("a*b*c*d*e*/f") ("axbxcxdxe/f") = .ok true ∧
    Match ("a/**") ("a") = .ok false ∧
    Match ("a/**") ("a/b/c") = .ok true ∧
    Match ("ab\x7bc,d,*\x7d") ("abcde") = .ok true ∧
    Match ("[]a]") ("]") = .error () :=
  ⟨rfl, rfl, rfl, rfl, rfl⟩
